import Mathlib

/-!
Verification of the codecov-mcp-server core (API client + response
normalization layer) against its natural-language specification.

The TypeScript source (src/tools/coverage.ts, src/tools/comparison.ts,
src/constants.ts, src/types.ts) is shallowly embedded below.  JavaScript
numbers that hold coverage percentages are modelled as `Rat`; integral
counters as `Int`/`Nat`; `null`/`undefined` as `Option`; thrown errors as
`Except`.  JavaScript string formatting primitives (`toFixed`,
`parseFloat`, template literals, `repeat`, `join`) are given executable
embeddings.
-/

namespace Codecov

/-! ### JavaScript primitive embeddings -/

/-- Decimal digits of a natural number, most significant first, with
explicit structural fuel so the definition reduces in the kernel.
Embeds the decimal rendering JavaScript applies to integral numbers in
template literals and `toString`. -/
def natDigitsAux : Nat → Nat → List Char
  | 0, _ => []
  | fuel + 1, n =>
    if n < 10 then [Nat.digitChar n]
    else natDigitsAux fuel (n / 10) ++ [Nat.digitChar (n % 10)]

/-- Decimal digit list of `n`, most significant first. -/
def natDigits (n : Nat) : List Char := natDigitsAux (n + 1) n

/-- Decimal string of a natural number (JS integral-number rendering). -/
def natToStr (n : Nat) : String := ⟨natDigits n⟩

/-- Decimal string of an integer (JS integral-number rendering). -/
def intToStr (i : Int) : String :=
  if i < 0 then "-" ++ natToStr i.natAbs else natToStr i.natAbs

/-- Exactly-two-digit rendering of `n < 100` (fraction part of
`toFixed(2)`). -/
def pad2 (n : Nat) : String := ⟨[Nat.digitChar (n / 10), Nat.digitChar (n % 10)]⟩

/-- Embeds `x.toFixed(2)` for non-negative `x`: round to the nearest hundredth
(ties away from zero, as the ECMAScript `toFixed` specification demands
on the magnitude) and print with exactly two fraction digits. -/
def jsToFixed2Mag (x : Rat) : String :=
  let n : Nat := ((x * 100 + 1 / 2 : Rat).floor).toNat
  natToStr (n / 100) ++ "." ++ pad2 (n % 100)

/-- Embeds `x.toFixed(2)`: ECMAScript prints a leading `-` for negative input
and formats the magnitude. -/
def jsToFixed2 (x : Rat) : String :=
  if x < 0 then "-" ++ jsToFixed2Mag (-x) else jsToFixed2Mag x

/-- Embeds `x.toFixed(1)` for non-negative `x`. -/
def jsToFixed1Mag (x : Rat) : String :=
  let n : Nat := ((x * 10 + 1 / 2 : Rat).floor).toNat
  natToStr (n / 10) ++ "." ++ (⟨[Nat.digitChar (n % 10)]⟩ : String)

/-- Embeds `x.toFixed(1)`. -/
def jsToFixed1 (x : Rat) : String :=
  if x < 0 then "-" ++ jsToFixed1Mag (-x) else jsToFixed1Mag x

/-- The rational value `toFixed(2)` displays: `x` rounded to two decimal
places, ties away from zero. -/
def round2 (x : Rat) : Rat :=
  if x < 0 then -((((-x) * 100 + 1 / 2 : Rat).floor).toNat : Rat) / 100
  else ((((x * 100 + 1 / 2 : Rat).floor).toNat : Rat)) / 100

/-- Embeds `s.repeat(n)` for strings: `n` concatenated copies of `s`. -/
def jsRepeat (s : String) : Nat → String
  | 0 => ""
  | n + 1 => s ++ jsRepeat s n

/-- JavaScript string truthiness: only the empty string is falsy. -/
def jsTruthyS : Option String → Bool
  | none => false
  | some s => s ≠ ""

/-- JavaScript `a || b` on possibly-absent strings. -/
def jsOrS (a b : Option String) : Option String :=
  if jsTruthyS a then a else b

/-! `parseFloat(s) || 0` embedding: parse an optional sign, integer
digits, and an optional fraction, ignoring any trailing characters; a
parse failure (`NaN`) and a zero result both fall to `0` through `|| 0`,
which is the identity on the parsed rational. -/

/-- Split a leading run of decimal digits off a character list. -/
def takeDigits : List Char → List Char × List Char
  | [] => ([], [])
  | c :: cs =>
    if c.isDigit then
      let (ds, rest) := takeDigits cs
      (c :: ds, rest)
    else ([], c :: cs)

/-- Numeric value of a decimal digit character. -/
def digitVal (c : Char) : Nat := c.toNat - '0'.toNat

/-- Value of a most-significant-first digit list. -/
def digitsToNat (ds : List Char) : Nat := ds.foldl (fun a c => a * 10 + digitVal c) 0

/-- Embeds `parseFloat(s) || 0`. -/
def jsParseFloatOr0 (s : String) : Rat :=
  let cs := s.data
  let neg : Bool := decide (cs.head? = some '-')
  let cs2 : List Char :=
    if cs.head? = some '-' ∨ cs.head? = some '+' then cs.tail else cs
  let ip := (takeDigits cs2).1
  let rest := (takeDigits cs2).2
  let fp : List Char := if rest.head? = some '.' then (takeDigits rest.tail).1 else []
  if ip = [] ∧ fp = [] then 0
  else
    let mag : Rat :=
      (digitsToNat ip : Rat) + (digitsToNat fp : Rat) / ((10 ^ fp.length : Nat) : Rat)
    if neg then -mag else mag

/-! ### C1: file-coverage line classification and range compression
(`codecov_get_file_coverage` handler, src/tools/coverage.ts) -/

/-- One entry of `FileCoverageReport.line_coverage` (src/types.ts):
`coverage` is `null` (not relevant), `0` (miss) or a positive hit count;
`is_partial_hit` is an optional flag whose JS truthiness we model as a
`Bool`. -/
structure LineCoverageE where
  line_number : Nat
  coverage : Option Int
  is_partial_hit : Bool
  deriving Repr, DecidableEq

/-- Embeds `line.coverage !== null && line.coverage > 0`. -/
def covPos : Option Int → Bool
  | some v => decide (0 < v)
  | none => false

/-- One iteration of the classification loop of the
`codecov_get_file_coverage` handler: `coverage === 0` pushes onto
`missedLines`; otherwise `coverage !== null && coverage > 0` pushes onto
`partialLines` when the partial flag is truthy and onto `coveredLines`
when it is not; all other entries are skipped. -/
def classifyStep (acc : List Nat × List Nat × List Nat) (line : LineCoverageE) :
    List Nat × List Nat × List Nat :=
  if line.coverage = some 0 then (acc.1 ++ [line.line_number], acc.2.1, acc.2.2)
  else if covPos line.coverage then
    if line.is_partial_hit then (acc.1, acc.2.1 ++ [line.line_number], acc.2.2)
    else (acc.1, acc.2.1, acc.2.2 ++ [line.line_number])
  else acc

/-- The classification loop: `(missedLines, partialLines, coveredLines)`. -/
def classify (entries : List LineCoverageE) : List Nat × List Nat × List Nat :=
  entries.foldl classifyStep ([], [], [])

/-- Membership test for the missed class (`coverage === 0`). -/
def missedPred (e : LineCoverageE) : Bool := decide (e.coverage = some 0)

/-- Membership test for the partially-hit class
(`coverage > 0` and the partial flag truthy). -/
def partialPred (e : LineCoverageE) : Bool := covPos e.coverage && e.is_partial_hit

/-- Membership test for the fully-covered class
(`coverage > 0` and the partial flag falsy). -/
def coveredPred (e : LineCoverageE) : Bool := covPos e.coverage && !e.is_partial_hit

/-- The range accumulation loop of `groupLines`: `start`/`end` track the
current run, each break emits `(start, end)`, and the final iteration
(`i === lines.length`) emits the pending run. -/
def groupRangesGo (start e : Nat) : List Nat → List (Nat × Nat)
  | [] => [(start, e)]
  | y :: rest =>
    if y = e + 1 then groupRangesGo start y rest
    else (start, e) :: groupRangesGo y y rest

/-- The inclusive ranges `groupLines` builds from a line-number list. -/
def groupRanges : List Nat → List (Nat × Nat)
  | [] => []
  | x :: rest => groupRangesGo x x rest

/-- Embeds `start === end ? start : start-end` rendering of one range. -/
def renderRange (r : Nat × Nat) : String :=
  if r.1 = r.2 then natToStr r.1 else natToStr r.1 ++ "-" ++ natToStr r.2

/-- Embeds `groupLines` from the `codecov_get_file_coverage` handler: `"none"`
for an empty list, otherwise the comma-joined rendered ranges. -/
def groupLines (lines : List Nat) : String :=
  if lines.isEmpty then "none"
  else String.intercalate ", " ((groupRanges lines).map renderRange)

/-- Expansion of one inclusive range into its line numbers. -/
def expandRange (r : Nat × Nat) : List Nat := List.range' r.1 (r.2 + 1 - r.1)

/-- Expansion of an ordered range list. -/
def expandRanges (rs : List (Nat × Nat)) : List Nat := rs.flatMap expandRange

/-- Number of positions where an ascending sequence is not consecutive;
a minimal range cover needs one more range than this. -/
def breaks : List Nat → Nat
  | a :: b :: rest => (if b = a + 1 then 0 else 1) + breaks (b :: rest)
  | _ => 0

/-! ### C1 lemmas -/

theorem classify_foldl (entries : List LineCoverageE) :
    ∀ (m p c : List Nat),
      entries.foldl classifyStep (m, p, c) =
        (m ++ (entries.filter missedPred).map LineCoverageE.line_number,
         p ++ (entries.filter partialPred).map LineCoverageE.line_number,
         c ++ (entries.filter coveredPred).map LineCoverageE.line_number) := by
  induction entries with
  | nil => intro m p c; simp
  | cons e rest ih =>
    intro m p c
    by_cases h0 : e.coverage = some 0
    · have hcp : covPos e.coverage = false := by rw [h0]; simp [covPos]
      simp only [List.foldl_cons, classifyStep, h0, if_pos rfl, ih,
        List.filter_cons, missedPred, partialPred, coveredPred, hcp,
        decide_eq_true_eq, if_pos, Bool.false_and, Bool.and_self]
      simp [h0, covPos, List.append_assoc]
    · by_cases hcp : covPos e.coverage
      · by_cases hph : e.is_partial_hit
        · simp only [List.foldl_cons, classifyStep, if_neg h0, hcp, if_pos, hph, ih,
            List.filter_cons, missedPred, partialPred, coveredPred]
          simp [h0, hcp, hph, List.append_assoc]
        · simp only [List.foldl_cons, classifyStep, if_neg h0, hcp, if_pos,
            if_neg hph, ih, List.filter_cons, missedPred, partialPred, coveredPred]
          simp [h0, hcp, hph, List.append_assoc]
      · simp only [List.foldl_cons, classifyStep, if_neg h0, hcp, if_neg, ih,
          List.filter_cons, missedPred, partialPred, coveredPred]
        simp [h0, hcp]

theorem classify_eq_filters (entries : List LineCoverageE) :
    classify entries =
      ((entries.filter missedPred).map LineCoverageE.line_number,
       (entries.filter partialPred).map LineCoverageE.line_number,
       (entries.filter coveredPred).map LineCoverageE.line_number) := by
  simpa using classify_foldl entries [] [] []

theorem expandRanges_cons (r : Nat × Nat) (rs : List (Nat × Nat)) :
    expandRanges (r :: rs) = expandRange r ++ expandRanges rs := by
  simp [expandRanges]

theorem expand_groupRangesGo (rest : List Nat) :
    ∀ (start e : Nat), start ≤ e → List.Chain' (· < ·) (e :: rest) →
      expandRanges (groupRangesGo start e rest) =
        List.range' start (e + 1 - start) ++ rest := by
  induction rest with
  | nil =>
    intro start e _ _
    simp [groupRangesGo, expandRanges, expandRange]
  | cons y rest ih =>
    intro start e hse hch
    rw [List.chain'_cons] at hch
    obtain ⟨hey, hch⟩ := hch
    by_cases hy : y = e + 1
    · rw [groupRangesGo, if_pos hy]
      rw [ih start y (by omega) (hy ▸ hch)]
      have h1 : y + 1 - start = (e + 1 - start) + 1 := by omega
      rw [h1, List.range'_concat]
      have h2 : start + 1 * (e + 1 - start) = y := by omega
      rw [h2]
      simp
    · rw [groupRangesGo, if_neg hy]
      rw [expandRanges_cons, ih y y (le_refl y) hch]
      have h1 : y + 1 - y = 1 := by omega
      rw [h1]
      simp [expandRange]

theorem expand_groupRanges (lines : List Nat)
    (h : List.Chain' (· < ·) lines) :
    expandRanges (groupRanges lines) = lines := by
  cases lines with
  | nil => rfl
  | cons x rest =>
    rw [groupRanges, expand_groupRangesGo rest x x (le_refl x) h]
    have h1 : x + 1 - x = 1 := by omega
    rw [h1]
    simp

theorem groupRangesGo_length (rest : List Nat) :
    ∀ (start e : Nat),
      (groupRangesGo start e rest).length = breaks (e :: rest) + 1 := by
  induction rest with
  | nil => intro start e; simp [groupRangesGo, breaks]
  | cons y rest ih =>
    intro start e
    by_cases hy : y = e + 1
    · rw [groupRangesGo, if_pos hy, ih start y]
      simp [breaks, hy]
    · rw [groupRangesGo, if_neg hy]
      simp only [List.length_cons, ih y y]
      simp [breaks, hy]
      omega

theorem breaks_range' (n : Nat) : ∀ s : Nat, breaks (List.range' s n) = 0 := by
  induction n with
  | zero => intro s; rfl
  | succ m ih =>
    intro s
    cases m with
    | zero => rfl
    | succ k =>
      rw [List.range'_succ, List.range'_succ]
      show (if s + 1 = s + 1 then 0 else 1) + breaks ((s + 1) :: List.range' (s + 1 + 1) k) = 0
      rw [if_pos rfl, ← List.range'_succ]
      simpa using ih (s + 1)

theorem breaks_expandRange (r : Nat × Nat) : breaks (expandRange r) = 0 :=
  breaks_range' _ _

theorem breaks_append (l₁ l₂ : List Nat) :
    breaks (l₁ ++ l₂) ≤ breaks l₁ + breaks l₂ + 1 := by
  induction l₁ with
  | nil => simp [breaks]
  | cons a t ih =>
    cases t with
    | nil =>
      cases l₂ with
      | nil => simp [breaks]
      | cons b t₂ =>
        show (if b = a + 1 then 0 else 1) + breaks (b :: t₂) ≤ breaks [a] + breaks (b :: t₂) + 1
        have : breaks ([a] : List Nat) = 0 := rfl
        split <;> omega
    | cons b t' =>
      have h1 : breaks (a :: b :: (t' ++ l₂)) =
          (if b = a + 1 then 0 else 1) + breaks (b :: (t' ++ l₂)) := rfl
      have h2 : breaks (a :: b :: t') = (if b = a + 1 then 0 else 1) + breaks (b :: t') := rfl
      have h3 : (a :: b :: t') ++ l₂ = a :: b :: (t' ++ l₂) := rfl
      have h4 : (b :: t') ++ l₂ = b :: (t' ++ l₂) := rfl
      rw [h3, h1, h2]
      rw [h4] at ih
      omega

theorem breaks_le_of_expand (rs : List (Nat × Nat)) :
    ∀ (lines : List Nat), expandRanges rs = lines → lines ≠ [] →
      breaks lines + 1 ≤ rs.length := by
  induction rs with
  | nil =>
    intro lines h hne
    exact absurd h.symm hne
  | cons r rs' ih =>
    intro lines h hne
    rw [expandRanges_cons] at h
    by_cases h2 : expandRanges rs' = []
    · rw [h2, List.append_nil] at h
      rw [← h, breaks_expandRange]
      simp
    · have := breaks_append (expandRange r) (expandRanges rs')
      rw [breaks_expandRange] at this
      have hrec := ih (expandRanges rs') rfl h2
      rw [← h]
      calc breaks (expandRange r ++ expandRanges rs') + 1
          ≤ (breaks (expandRanges rs') + 1) + 1 := by omega
        _ ≤ rs'.length + 1 := by omega
        _ = (r :: rs').length := by simp

theorem groupRanges_minimal (lines : List Nat) (rs : List (Nat × Nat))
    (hne : lines ≠ []) (hrs : expandRanges rs = lines) :
    (groupRanges lines).length ≤ rs.length := by
  cases lines with
  | nil => exact absurd rfl hne
  | cons x rest =>
    rw [groupRanges, groupRangesGo_length]
    exact breaks_le_of_expand rs (x :: rest) hrs hne

/-- C1: the `codecov_get_file_coverage` summarizer partitions per-line
entries into three disjoint classes (missed: `coverage === 0`; partial:
`coverage > 0` and flagged partial; covered: `coverage > 0` and not
flagged; `coverage === null` entries fall in no class), and `groupLines`
compresses every ascending line-number sequence into a minimal ordered
range cover whose expansion reproduces the sequence exactly, rendering
the empty sequence as `"none"` and `[3,4,5,7]` as `"3-5, 7"`. -/
theorem C1_line_classes_and_range_compression
    (entries : List LineCoverageE) (lines : List Nat) (rs : List (Nat × Nat))
    (hasc : List.Chain' (· < ·) lines) (hne : lines ≠ [])
    (hrs : expandRanges rs = lines) :
    classify entries =
      ((entries.filter missedPred).map LineCoverageE.line_number,
       (entries.filter partialPred).map LineCoverageE.line_number,
       (entries.filter coveredPred).map LineCoverageE.line_number)
    ∧ (∀ e : LineCoverageE, e.coverage = none →
        missedPred e = false ∧ partialPred e = false ∧ coveredPred e = false)
    ∧ (∀ e : LineCoverageE,
        (missedPred e && partialPred e) = false
        ∧ (missedPred e && coveredPred e) = false
        ∧ (partialPred e && coveredPred e) = false)
    ∧ expandRanges (groupRanges lines) = lines
    ∧ (groupRanges lines).length ≤ rs.length
    ∧ groupLines [] = "none"
    ∧ groupLines [3, 4, 5, 7] = "3-5, 7" := by
  refine ⟨classify_eq_filters entries, ?_, ?_,
    expand_groupRanges lines hasc, groupRanges_minimal lines rs hne hrs, rfl, by decide⟩
  · intro e he
    simp [missedPred, partialPred, coveredPred, covPos, he]
  · intro e
    rcases he : e.coverage with _ | v
    · simp [missedPred, partialPred, coveredPred, covPos, he]
    · by_cases hv : v = 0
      · subst hv
        simp [missedPred, partialPred, coveredPred, covPos, he]
      · have : ¬ e.coverage = some 0 := by rw [he]; simp [hv]
        simp only [missedPred, partialPred, coveredPred, covPos, he, this]
        cases e.is_partial_hit <;> simp <;> omega

/-! ### Comparison summarizer embedding (`codecov_compare_coverage`,
src/tools/comparison.ts)

Input shapes follow src/types.ts.  Where the handler only dereferences a
single optional chain (`file.totals.base?.coverage`,
`file.totals.head?.coverage`, `result.totals.base?.coverage ?? null`),
the embedding carries the resulting optional rational directly; a `none`
stands both for an absent totals object and for an absent `coverage`
field, which JavaScript optional chaining conflates.
`result.totals.head.coverage` is dereferenced without a guard, so it is
embedded per its declared (non-optional) type. -/

/-- Embeds `PatchTotals` (src/types.ts); `coverage` is kept optional because the
handlers read it through `patch.coverage?.`. -/
structure PatchTotalsE where
  hits : Int
  misses : Int
  partials : Int
  coverage : Option Rat
  deriving Repr, DecidableEq

/-- The two optional per-file coverage percentages plus patch totals
(`ComparisonFile.totals` after the handler's optional chains). -/
structure FileTotalsE where
  base : Option Rat
  head : Option Rat
  patch : Option PatchTotalsE
  deriving Repr, DecidableEq

/-- Embeds `FileStats` (src/types.ts). -/
structure FileStatsE where
  added : Int
  removed : Int
  deriving Repr, DecidableEq

/-- Embeds `FileChangeSummary` (src/types.ts). -/
structure FileChangeSummaryE where
  hits : Int
  misses : Int
  partials : Int
  deriving Repr, DecidableEq

/-- Embeds `ComparisonFile` (src/types.ts). -/
structure ComparisonFileE where
  name : String
  totals : FileTotalsE
  has_diff : Bool
  stats : Option FileStatsE
  change_summary : Option FileChangeSummaryE
  deriving Repr, DecidableEq

/-- Embeds `ComparisonTotals` (src/types.ts): `base` is nullable, `head` is
required, `patch` is nullable. -/
structure ComparisonTotalsE where
  base : Option Rat
  head : Rat
  patch : Option PatchTotalsE
  deriving Repr, DecidableEq

/-- Embeds `CoverageComparison` (src/types.ts), restricted to the fields the
handler reads. -/
structure CoverageComparisonE where
  base_commit : Option String
  head_commit : String
  totals : ComparisonTotalsE
  files : List ComparisonFileE
  untracked : List String
  has_unmerged_base_commits : Bool
  deriving Repr, DecidableEq

/-- Embeds `x !== undefined ? x.toFixed(2) + "%" : "N/A"` (per-file base/head
coverage rendering). -/
def fmtPctOpt : Option Rat → String
  | some c => jsToFixed2 c ++ "%"
  | none => "N/A"

/-- Embeds `change !== null ? (change >= 0 ? "+" : "") + change.toFixed(2) + "%"
: "N/A"` (both the per-file `change` field and the `coverage_totals`
`change` field). -/
def fmtChange : Option Rat → String
  | some c => (if 0 ≤ c then "+" else "") ++ jsToFixed2 c ++ "%"
  | none => "N/A"

/-- Embeds `x?.toFixed(2) + "%"`: JavaScript coerces an `undefined` left operand
of `+` to the string `"undefined"`, so an absent coverage prints
`"undefined%"`, not `"N/A"`. -/
def jsUndefPct : Option Rat → String
  | some c => jsToFixed2 c ++ "%"
  | none => "undefined" ++ "%"

/-- Embeds `s.substring(0, n)`. -/
def jsSubstring0 (n : Nat) (s : String) : String := s.take n

/-- The rendered patch block of a changed file. -/
structure PatchOutE where
  coverage : String
  hits : Int
  misses : Int
  deriving Repr, DecidableEq

/-- One element of the handler's `changedFiles` array. -/
structure ChangedFileOutE where
  name : String
  base_coverage : String
  head_coverage : String
  change : String
  patch : Option PatchOutE
  lines_added : Int
  lines_removed : Int
  deriving Repr, DecidableEq

/-- The `.map((file) => ...)` body building one `changedFiles` record. -/
def mkChangedFile (file : ComparisonFileE) : ChangedFileOutE :=
  let baseCov := file.totals.base
  let headCov := file.totals.head
  let change : Option Rat :=
    match baseCov, headCov with
    | some b, some h => some (h - b)
    | _, _ => none
  { name := file.name
    base_coverage := fmtPctOpt baseCov
    head_coverage := fmtPctOpt headCov
    change := fmtChange change
    patch := file.totals.patch.map fun p =>
      { coverage := jsUndefPct p.coverage, hits := p.hits, misses := p.misses }
    lines_added := (file.stats.map FileStatsE.added).getD 0
    lines_removed := (file.stats.map FileStatsE.removed).getD 0 }

/-- Embeds `f.has_diff || f.change_summary` (object truthiness). -/
def changedPred (f : ComparisonFileE) : Bool := f.has_diff || f.change_summary.isSome

/-- The sort key `parseFloat(a.change) || 0` of the handler's comparator. -/
def changeKey (r : ChangedFileOutE) : Rat := jsParseFloatOr0 r.change

/-- Embeds `result.files.filter(...).map(...)` followed by the stable
ascending sort on the parsed change (JavaScript `Array.prototype.sort`
with the comparator `aChange - bChange` is a stable sort by that key). -/
def changedFilesSorted (files : List ComparisonFileE) : List ChangedFileOutE :=
  ((files.filter changedPred).map mkChangedFile).mergeSort
    fun a b => decide (changeKey a ≤ changeKey b)

/-- The rendered `patch_coverage` block of the summary. -/
structure PatchTotalsOutE where
  percentage : String
  hits : Int
  misses : Int
  partials : Int
  deriving Repr, DecidableEq

/-- The `summary` object of the `codecov_compare_coverage` handler.
`patch_coverage = none` stands for the string
`"No patch coverage data"` placed there when `result.totals.patch` is
null. -/
structure ComparisonSummaryE where
  base_commit : String
  head_commit : String
  coverage_totals_base : String
  coverage_totals_head : String
  coverage_totals_change : String
  patch_coverage : Option PatchTotalsOutE
  files_changed : Nat
  untracked_files : Nat
  has_unmerged_base_commits : Bool
  changed_files : List ChangedFileOutE
  deriving Repr, DecidableEq

/-- The `codecov_compare_coverage` summarizer (src/tools/comparison.ts):
computes the totals delta, builds, sorts and truncates `changedFiles`,
and assembles the summary object. -/
def compareSummary (result : CoverageComparisonE) : ComparisonSummaryE :=
  let baseCoverage := result.totals.base
  let headCoverage := result.totals.head
  let coverageChange : Option Rat := baseCoverage.map fun b => headCoverage - b
  let changedFiles := changedFilesSorted result.files
  { base_commit := (result.base_commit.map (jsSubstring0 7)).getD "N/A"
    head_commit := jsSubstring0 7 result.head_commit
    coverage_totals_base := fmtPctOpt baseCoverage
    coverage_totals_head := jsToFixed2 headCoverage ++ "%"
    coverage_totals_change := fmtChange coverageChange
    patch_coverage := result.totals.patch.map fun p =>
      { percentage := jsUndefPct p.coverage, hits := p.hits, misses := p.misses,
        partials := p.partials }
    files_changed := changedFiles.length
    untracked_files := result.untracked.length
    has_unmerged_base_commits := result.has_unmerged_base_commits
    changed_files := changedFiles.take 20 }

/-- The untracked-files warning the handler appends to the JSON text:
nothing when `untracked` is empty, otherwise a header, the first ten
paths joined by newlines, and an `... and N more` trailer exactly when
more than ten exist. -/
def untrackedWarning (untracked : List String) : String :=
  if untracked.length > 0 then
    "\n\n⚠️ Untracked files (new files without coverage):\n" ++
      String.intercalate "\n" (untracked.take 10) ++
      (if untracked.length > 10 then
        "\n... and " ++ natToStr (untracked.length - 10) ++ " more"
      else "")
  else ""

/-- The full response text: the serialized summary followed by the
warning block. -/
def comparisonText (body : String) (untracked : List String) : String :=
  body ++ untrackedWarning untracked

/-! ### Decimal rendering / parsing lemmas (shared by C2 and C3) -/

theorem digitChar_isDigit {k : Nat} (h : k < 10) : (Nat.digitChar k).isDigit = true := by
  interval_cases k <;> decide

theorem digitVal_digitChar {k : Nat} (h : k < 10) : digitVal (Nat.digitChar k) = k := by
  interval_cases k <;> decide

theorem natDigitsAux_ne_nil (fuel n : Nat) (h : n < fuel) :
    natDigitsAux fuel n ≠ [] := by
  cases fuel with
  | zero => omega
  | succ m =>
    rw [natDigitsAux]
    split
    · simp
    · simp

theorem natDigitsAux_isDigit (fuel : Nat) :
    ∀ n, n < fuel → ∀ c ∈ natDigitsAux fuel n, c.isDigit = true := by
  induction fuel with
  | zero => intro n h; omega
  | succ m ih =>
    intro n h c hc
    rw [natDigitsAux] at hc
    by_cases h10 : n < 10
    · rw [if_pos h10] at hc
      simp at hc
      subst hc
      exact digitChar_isDigit h10
    · rw [if_neg h10] at hc
      have hdiv : n / 10 < n := Nat.div_lt_self (by omega) (by decide)
      rcases List.mem_append.mp hc with hmem | hmem
      · exact ih (n / 10) (by omega) c hmem
      · simp at hmem
        subst hmem
        exact digitChar_isDigit (Nat.mod_lt _ (by omega))

theorem digitsToNat_append_singleton (ds : List Char) (c : Char) :
    digitsToNat (ds ++ [c]) = digitsToNat ds * 10 + digitVal c := by
  simp [digitsToNat, List.foldl_append]

theorem digitsToNat_natDigitsAux (fuel : Nat) :
    ∀ n, n < fuel → digitsToNat (natDigitsAux fuel n) = n := by
  induction fuel with
  | zero => intro n h; omega
  | succ m ih =>
    intro n h
    rw [natDigitsAux]
    by_cases h10 : n < 10
    · rw [if_pos h10]
      simp [digitsToNat, digitVal_digitChar h10]
    · have hdiv : n / 10 < n := Nat.div_lt_self (by omega) (by decide)
      rw [if_neg h10, digitsToNat_append_singleton,
        ih (n / 10) (by omega),
        digitVal_digitChar (Nat.mod_lt _ (by omega))]
      omega

theorem natDigits_ne_nil (n : Nat) : natDigits n ≠ [] :=
  natDigitsAux_ne_nil _ _ (Nat.lt_succ_self n)

theorem natDigits_isDigit (n : Nat) : ∀ c ∈ natDigits n, c.isDigit = true :=
  natDigitsAux_isDigit _ _ (Nat.lt_succ_self n)

theorem digitsToNat_natDigits (n : Nat) : digitsToNat (natDigits n) = n :=
  digitsToNat_natDigitsAux _ _ (Nat.lt_succ_self n)

theorem takeDigits_split (ds : List Char) (rest : List Char)
    (hd : ∀ c ∈ ds, c.isDigit = true)
    (hr : ∀ c0, rest.head? = some c0 → c0.isDigit = false) :
    takeDigits (ds ++ rest) = (ds, rest) := by
  induction ds with
  | nil =>
    cases rest with
    | nil => rfl
    | cons c0 t =>
      have : c0.isDigit = false := hr c0 (by simp)
      simp [takeDigits, this]
  | cons d ds' ih =>
    have hdd : d.isDigit = true := hd d (by simp)
    have ih' := ih (fun c hc => hd c (by simp [hc]))
    simp [takeDigits, hdd, ih']

theorem digitsToNat_pair (a b : Char) :
    digitsToNat [a, b] = digitVal a * 10 + digitVal b := by
  simp [digitsToNat]

theorem natCast_div_add_mod_div (n : Nat) :
    ((n / 100 : Nat) : Rat) + ((n % 100 : Nat) : Rat) / 100 = (n : Rat) / 100 := by
  have h : (100 : Rat) * ((n / 100 : Nat) : Rat) + ((n % 100 : Nat) : Rat) = (n : Rat) := by
    exact_mod_cast congrArg (Nat.cast : Nat → Rat) (Nat.div_add_mod n 100)
  field_simp
  linarith

theorem jsToFixed2Mag_data (x : Rat) :
    (jsToFixed2Mag x).data =
      natDigits (((x * 100 + 1 / 2 : Rat).floor).toNat / 100) ++
        '.' :: [Nat.digitChar (((x * 100 + 1 / 2 : Rat).floor).toNat % 100 / 10),
                Nat.digitChar (((x * 100 + 1 / 2 : Rat).floor).toNat % 100 % 10)] := by
  simp [jsToFixed2Mag, natToStr, pad2]

theorem jsParseFloat_signed (sgn : Bool) (n : Nat) (s : String)
    (hdata : s.data =
      (if sgn then '-' else '+') ::
        (natDigits (n / 100) ++
          '.' :: [Nat.digitChar (n % 100 / 10), Nat.digitChar (n % 100 % 10), '%'])) :
    jsParseFloatOr0 s = if sgn then -((n : Rat) / 100) else (n : Rat) / 100 := by
  have h100 : n % 100 < 100 := Nat.mod_lt _ (by omega)
  have hd1 : (Nat.digitChar (n % 100 / 10)).isDigit = true := digitChar_isDigit (by omega)
  have hd2 : (Nat.digitChar (n % 100 % 10)).isDigit = true := digitChar_isDigit (by omega)
  have htake1 : takeDigits (natDigits (n / 100) ++
      ('.' :: [Nat.digitChar (n % 100 / 10), Nat.digitChar (n % 100 % 10), '%'])) =
      (natDigits (n / 100),
        '.' :: [Nat.digitChar (n % 100 / 10), Nat.digitChar (n % 100 % 10), '%']) :=
    takeDigits_split _ _ (natDigits_isDigit _)
      (by intro c0 hc0; simp at hc0; subst hc0; decide)
  have htake2 : takeDigits [Nat.digitChar (n % 100 / 10), Nat.digitChar (n % 100 % 10), '%'] =
      ([Nat.digitChar (n % 100 / 10), Nat.digitChar (n % 100 % 10)], ['%']) := by
    simpa using takeDigits_split [Nat.digitChar (n % 100 / 10), Nat.digitChar (n % 100 % 10)] ['%']
      (by intro c hc; simp at hc; rcases hc with h | h <;> (subst h; assumption))
      (by intro c0 hc0; simp at hc0; subst hc0; decide)
  have hval : digitsToNat [Nat.digitChar (n % 100 / 10), Nat.digitChar (n % 100 % 10)] = n % 100 := by
    rw [digitsToNat_pair, digitVal_digitChar (by omega), digitVal_digitChar (by omega)]
    omega
  have hmag : (digitsToNat (natDigits (n / 100)) : Rat) +
      (digitsToNat [Nat.digitChar (n % 100 / 10), Nat.digitChar (n % 100 % 10)] : Rat) /
        ((10 ^ ([Nat.digitChar (n % 100 / 10), Nat.digitChar (n % 100 % 10)]).length : Nat) : Rat) =
      (n : Rat) / 100 := by
    rw [hval, digitsToNat_natDigits]
    simpa using natCast_div_add_mod_div n
  have hip : natDigits (n / 100) ≠ [] := natDigits_ne_nil _
  have hdecpm : (decide ((some '+' : Option Char) = some '-')) = false := by decide
  have hdecmm : (decide ((some '-' : Option Char) = some '-')) = true := by decide
  cases sgn
  · simp only [if_false, Bool.false_eq_true] at hdata ⊢
    simp only [jsParseFloatOr0, hdata, List.head?_cons, List.tail_cons, hdecpm,
      or_true, if_true, htake1, htake2, hip]
    simp only [false_and, if_false]
    push_cast at hmag ⊢
    linarith
  · simp only [if_true, reduceIte] at hdata ⊢
    simp only [jsParseFloatOr0, hdata, List.head?_cons, List.tail_cons, hdecmm,
      true_or, if_true, htake1, htake2, hip]
    simp only [false_and, if_false, decide_True, if_true]
    push_cast at hmag ⊢
    linarith

theorem parse_fmtChange (c : Rat) : jsParseFloatOr0 (fmtChange (some c)) = round2 c := by
  by_cases hc : 0 ≤ c
  · have hnlt : ¬ c < 0 := not_lt.mpr hc
    have hdata : (fmtChange (some c)).data =
        '+' :: (natDigits ((((c * 100 + 1 / 2 : Rat).floor).toNat) / 100) ++
          '.' :: [Nat.digitChar ((((c * 100 + 1 / 2 : Rat).floor).toNat) % 100 / 10),
                  Nat.digitChar ((((c * 100 + 1 / 2 : Rat).floor).toNat) % 100 % 10), '%']) := by
      simp only [fmtChange, if_pos hc, jsToFixed2, if_neg hnlt]
      simp [jsToFixed2Mag_data]
    have h := jsParseFloat_signed false (((c * 100 + 1 / 2 : Rat).floor).toNat) _ hdata
    simp only [if_false, Bool.false_eq_true] at h
    rw [h, round2, if_neg hnlt]
  · have hlt : c < 0 := lt_of_not_ge hc
    have hdata : (fmtChange (some c)).data =
        '-' :: (natDigits (((((-c) * 100 + 1 / 2 : Rat).floor).toNat) / 100) ++
          '.' :: [Nat.digitChar (((((-c) * 100 + 1 / 2 : Rat).floor).toNat) % 100 / 10),
                  Nat.digitChar (((((-c) * 100 + 1 / 2 : Rat).floor).toNat) % 100 % 10), '%']) := by
      simp only [fmtChange, if_neg hc, jsToFixed2, if_pos hlt]
      simp [jsToFixed2Mag_data]
    have h := jsParseFloat_signed true ((((-c) * 100 + 1 / 2 : Rat).floor).toNat) _ hdata
    simp only [if_true] at h
    rw [h, round2, if_pos hlt]
    ring

theorem fmtChange_head (c : Rat) :
    (fmtChange (some c)).data.head? = some (if 0 ≤ c then '+' else '-') := by
  by_cases hc : 0 ≤ c
  · simp [fmtChange, hc, jsToFixed2, not_lt.mpr hc]
  · simp [fmtChange, hc, jsToFixed2, lt_of_not_ge hc]

theorem fmtChange_ne_NA (c : Rat) : fmtChange (some c) ≠ "N/A" := by
  intro h
  have h2 := congrArg (fun s => s.data.head?) h
  simp only [fmtChange_head] at h2
  by_cases hc : 0 ≤ c
  · rw [if_pos hc] at h2
    exact absurd (Option.some.inj h2) (by decide)
  · rw [if_neg hc] at h2
    exact absurd (Option.some.inj h2) (by decide)

theorem fmtChange_shape (c : Rat) :
    ∃ ip fp : String,
      fmtChange (some c) = (if 0 ≤ c then "+" else "-") ++ ip ++ "." ++ fp ++ "%"
      ∧ fp.length = 2 := by
  by_cases hc : 0 ≤ c
  · refine ⟨natToStr ((((c * 100 + 1 / 2 : Rat).floor).toNat) / 100),
      pad2 ((((c * 100 + 1 / 2 : Rat).floor).toNat) % 100), String.ext ?_, rfl⟩
    simp [fmtChange, hc, jsToFixed2, not_lt.mpr hc, jsToFixed2Mag, natToStr, pad2]
  · refine ⟨natToStr (((((-c) * 100 + 1 / 2 : Rat).floor).toNat) / 100),
      pad2 (((((-c) * 100 + 1 / 2 : Rat).floor).toNat) % 100), String.ext ?_, rfl⟩
    simp [fmtChange, hc, jsToFixed2, lt_of_not_ge hc, jsToFixed2Mag, natToStr, pad2]


/-! ### Coverage totals / file coverage summaries
(`codecov_get_coverage_totals` and `codecov_get_file_coverage` handlers,
src/tools/coverage.ts) -/

/-- Embeds `CoverageTotals` (src/types.ts), restricted to the fields the
handlers read.  `coverage` and `complexity_ratio` are carried as options
because the handlers read them through optional chaining (`?.`), so the
embedding must cover their runtime absence. -/
structure CoverageTotalsE where
  files : Int
  lines : Int
  hits : Int
  misses : Int
  partials : Int
  coverage : Option Rat
  branches : Int
  methods : Int
  complexity_total : Int
  complexity_ratio : Option Rat
  deriving Repr, DecidableEq

/-- The `summary` object of the `codecov_get_coverage_totals` handler. -/
structure CoverageTotalsSummaryE where
  coverage_percentage : String
  lines_total : Int
  lines_covered : Int
  lines_missed : Int
  lines_partial : Int
  files_count : Int
  branches : Int
  methods : Int
  complexity_total : Int
  complexity_ratio : Option String
  commit_sha : String
  deriving Repr, DecidableEq

/-- The `codecov_get_coverage_totals` summarizer:
`coverage_percentage` is `totals.coverage?.toFixed(2) + "%"` and
`complexity.ratio` is `totals.complexity_ratio?.toFixed(2)` (absent when
the ratio is absent, since `JSON.stringify` drops `undefined` fields). -/
def mkCoverageTotalsSummary (totals : CoverageTotalsE) (commit_sha : String) :
    CoverageTotalsSummaryE :=
  { coverage_percentage := jsUndefPct totals.coverage
    lines_total := totals.lines
    lines_covered := totals.hits
    lines_missed := totals.misses
    lines_partial := totals.partials
    files_count := totals.files
    branches := totals.branches
    methods := totals.methods
    complexity_total := totals.complexity_total
    complexity_ratio := totals.complexity_ratio.map jsToFixed2
    commit_sha := commit_sha }

/-- The `summary` object of the `codecov_get_file_coverage` handler. -/
structure FileCoverageSummaryE where
  file : String
  commit_sha : String
  coverage_percentage : String
  totals_lines : Int
  totals_hits : Int
  totals_misses : Int
  totals_partials : Int
  uncovered_lines : String
  partial_lines : String
  uncovered_line_count : Nat
  commit_file_url : String
  deriving Repr, DecidableEq

/-- The `codecov_get_file_coverage` summarizer: classifies the line
entries, compresses the missed and partial classes with `groupLines`,
and renders `result.totals?.coverage?.toFixed(2) + "%"`. -/
def mkFileCoverageSummary (name commit_sha commit_file_url : String)
    (totals : CoverageTotalsE) (line_coverage : List LineCoverageE) :
    FileCoverageSummaryE :=
  let cls := classify line_coverage
  { file := name
    commit_sha := commit_sha
    coverage_percentage := jsUndefPct totals.coverage
    totals_lines := totals.lines
    totals_hits := totals.hits
    totals_misses := totals.misses
    totals_partials := totals.partials
    uncovered_lines := groupLines cls.1
    partial_lines := groupLines cls.2.1
    uncovered_line_count := cls.1.length
    commit_file_url := commit_file_url }

/-- Closed witness for C1 at a concrete file-coverage response. -/
theorem C1_witness :
    classify
        [⟨3, some 0, false⟩, ⟨4, some 0, false⟩, ⟨5, some 0, false⟩,
         ⟨6, none, false⟩, ⟨7, some 0, false⟩, ⟨8, some 2, true⟩, ⟨9, some 1, false⟩] =
      (([⟨3, some 0, false⟩, ⟨4, some 0, false⟩, ⟨5, some 0, false⟩,
         ⟨6, none, false⟩, ⟨7, some 0, false⟩, ⟨8, some 2, true⟩,
         (⟨9, some 1, false⟩ : LineCoverageE)].filter missedPred).map LineCoverageE.line_number,
       ([⟨3, some 0, false⟩, ⟨4, some 0, false⟩, ⟨5, some 0, false⟩,
         ⟨6, none, false⟩, ⟨7, some 0, false⟩, ⟨8, some 2, true⟩,
         (⟨9, some 1, false⟩ : LineCoverageE)].filter partialPred).map LineCoverageE.line_number,
       ([⟨3, some 0, false⟩, ⟨4, some 0, false⟩, ⟨5, some 0, false⟩,
         ⟨6, none, false⟩, ⟨7, some 0, false⟩, ⟨8, some 2, true⟩,
         (⟨9, some 1, false⟩ : LineCoverageE)].filter coveredPred).map LineCoverageE.line_number)
    ∧ (∀ e : LineCoverageE, e.coverage = none →
        missedPred e = false ∧ partialPred e = false ∧ coveredPred e = false)
    ∧ (∀ e : LineCoverageE,
        (missedPred e && partialPred e) = false
        ∧ (missedPred e && coveredPred e) = false
        ∧ (partialPred e && coveredPred e) = false)
    ∧ expandRanges (groupRanges [3, 4, 5, 7]) = [3, 4, 5, 7]
    ∧ (groupRanges [3, 4, 5, 7]).length ≤ [(3, 5), (7, 7)].length
    ∧ groupLines [] = "none"
    ∧ groupLines [3, 4, 5, 7] = "3-5, 7" :=
  C1_line_classes_and_range_compression
    [⟨3, some 0, false⟩, ⟨4, some 0, false⟩, ⟨5, some 0, false⟩,
     ⟨6, none, false⟩, ⟨7, some 0, false⟩, ⟨8, some 2, true⟩, ⟨9, some 1, false⟩]
    [3, 4, 5, 7] [(3, 5), (7, 7)] (by simp [List.chain'_cons]) (by decide) (by decide)

/-- C2: coverage deltas equal head minus base exactly when both
percentages are present, render as `"N/A"` when either is absent (never
as a zero), and the rendered delta string carries a leading `+` exactly
when the delta is non-negative, with two fraction digits and a trailing
`%`; this holds for the per-file `change` field and for the
`coverage_totals.change` field. -/
theorem C2_coverage_delta :
    (∀ f : ComparisonFileE, (mkChangedFile f).change =
        fmtChange (match f.totals.base, f.totals.head with
          | some b, some h => some (h - b)
          | _, _ => none))
    ∧ fmtChange none = "N/A"
    ∧ (∀ c : Rat, fmtChange (some c) ≠ "N/A")
    ∧ (∀ c : Rat, (fmtChange (some c)).data.head? = some (if 0 ≤ c then '+' else '-'))
    ∧ (∀ c : Rat, ∃ ip fp : String,
        fmtChange (some c) = (if 0 ≤ c then "+" else "-") ++ ip ++ "." ++ fp ++ "%"
        ∧ fp.length = 2)
    ∧ (∀ result : CoverageComparisonE,
        (compareSummary result).coverage_totals_change =
          fmtChange (result.totals.base.map fun b => result.totals.head - b)) :=
  ⟨fun _ => rfl, rfl, fmtChange_ne_NA, fmtChange_head, fmtChange_shape, fun _ => rfl⟩


/-- Closed witness for C2 at concrete deltas. -/
theorem C2_witness :
    fmtChange none = "N/A"
    ∧ fmtChange (some (45 : Rat)) ≠ "N/A"
    ∧ (fmtChange (some (45 : Rat))).data.head? =
        some (if (0 : Rat) ≤ 45 then '+' else '-')
    ∧ (mkChangedFile ⟨"a.ts", ⟨some 90, some 80, none⟩, true, none, none⟩).change =
        fmtChange (match (some (90 : Rat)), (some (80 : Rat)) with
          | some b, some h => some (h - b)
          | _, _ => none) :=
  ⟨C2_coverage_delta.2.1, C2_coverage_delta.2.2.1 45, C2_coverage_delta.2.2.2.1 45,
    C2_coverage_delta.1 ⟨"a.ts", ⟨some 90, some 80, none⟩, true, none, none⟩⟩

theorem changeKey_le_trans (a b c : ChangedFileOutE)
    (hab : decide (changeKey a ≤ changeKey b) = true)
    (hbc : decide (changeKey b ≤ changeKey c) = true) :
    decide (changeKey a ≤ changeKey c) = true :=
  decide_eq_true (le_trans (of_decide_eq_true hab) (of_decide_eq_true hbc))

theorem changeKey_le_total (a b : ChangedFileOutE) :
    (decide (changeKey a ≤ changeKey b) || decide (changeKey b ≤ changeKey a)) = true := by
  simpa using le_total (changeKey a) (changeKey b)

/-- C3: the comparison summarizer keeps exactly the files with a diff or
a change summary, sorts them ascending by the parsed numeric delta
(files without a computable delta keyed as 0), truncates the displayed
list to the FIRST 20 entries of that ascending order — the displayed
block together with the withheld remainder forms one ascending sequence
permuting the whole filtered set, so every withheld entry's key is at
least every displayed entry's key — and reports `files_changed` as the
full filtered count. -/
theorem C3_file_change_ranking (result : CoverageComparisonE) :
    (compareSummary result).files_changed = (result.files.filter changedPred).length
    ∧ (compareSummary result).changed_files.length =
        min 20 (result.files.filter changedPred).length
    ∧ List.Pairwise (fun a b => changeKey a ≤ changeKey b)
        (compareSummary result).changed_files
    ∧ (∃ rest, ((compareSummary result).changed_files ++ rest).Perm
          ((result.files.filter changedPred).map mkChangedFile)
        ∧ List.Pairwise (fun a b => changeKey a ≤ changeKey b)
            ((compareSummary result).changed_files ++ rest)
        ∧ ∀ a ∈ (compareSummary result).changed_files, ∀ b ∈ rest,
            changeKey a ≤ changeKey b)
    ∧ (∀ f : ComparisonFileE, changeKey (mkChangedFile f) =
        match f.totals.base, f.totals.head with
        | some b, some h => round2 (h - b)
        | _, _ => 0) := by
  have hs := @List.sorted_mergeSort _ (fun a b => decide (changeKey a ≤ changeKey b))
    changeKey_le_trans changeKey_le_total
    ((result.files.filter changedPred).map mkChangedFile)
  have hp : List.Pairwise (fun a b => changeKey a ≤ changeKey b)
      (changedFilesSorted result.files) :=
    hs.imp fun h => of_decide_eq_true h
  refine ⟨?_, ?_, ?_, ?_, ?_⟩
  · show (changedFilesSorted result.files).length = _
    simp [changedFilesSorted]
  · show ((changedFilesSorted result.files).take 20).length = _
    simp [changedFilesSorted]
  · show List.Pairwise _ ((changedFilesSorted result.files).take 20)
    exact hp.sublist (List.take_sublist 20 _)
  · refine ⟨(changedFilesSorted result.files).drop 20, ?_, ?_, ?_⟩
    · show ((changedFilesSorted result.files).take 20 ++
          (changedFilesSorted result.files).drop 20).Perm _
      rw [List.take_append_drop]
      exact List.mergeSort_perm _ _
    · show List.Pairwise _ ((changedFilesSorted result.files).take 20 ++
          (changedFilesSorted result.files).drop 20)
      rw [List.take_append_drop]
      exact hp
    · intro a ha b hb
      have hsplit : List.Pairwise (fun a b => changeKey a ≤ changeKey b)
          ((changedFilesSorted result.files).take 20 ++
            (changedFilesSorted result.files).drop 20) := by
        rw [List.take_append_drop]
        exact hp
      exact (List.pairwise_append.mp hsplit).2.2 a ha b hb
  · intro f
    have hch : (mkChangedFile f).change =
        fmtChange (match f.totals.base, f.totals.head with
          | some b, some h => some (h - b)
          | _, _ => none) := rfl
    show jsParseFloatOr0 (mkChangedFile f).change = _
    rw [hch]
    rcases hb : f.totals.base with _ | b <;> rcases hh : f.totals.head with _ | h <;>
      simp only [hb, hh]
    · decide
    · decide
    · decide
    · exact parse_fmtChange (h - b)

/-- The spec's ranking example: file `a` regresses 90 → 80, file `b`
improves 50 → 95, file `c` has neither diff nor change summary. -/
def c3ExampleComparison : CoverageComparisonE :=
  ⟨some "basesha", "headsha", ⟨some 80, 85, none⟩,
    [⟨"a", ⟨some 90, some 80, none⟩, true, none, none⟩,
     ⟨"b", ⟨some 50, some 95, none⟩, true, none, none⟩,
     ⟨"c", ⟨none, none, none⟩, false, none, none⟩],
    [], false⟩

/-- Closed witness for C3 at the spec's three-file example. -/
theorem C3_witness :
    (compareSummary c3ExampleComparison).files_changed =
        (c3ExampleComparison.files.filter changedPred).length
    ∧ (compareSummary c3ExampleComparison).changed_files.length =
        min 20 (c3ExampleComparison.files.filter changedPred).length
    ∧ List.Pairwise (fun a b => changeKey a ≤ changeKey b)
        (compareSummary c3ExampleComparison).changed_files
    ∧ (∃ rest, ((compareSummary c3ExampleComparison).changed_files ++ rest).Perm
          ((c3ExampleComparison.files.filter changedPred).map mkChangedFile)
        ∧ List.Pairwise (fun a b => changeKey a ≤ changeKey b)
            ((compareSummary c3ExampleComparison).changed_files ++ rest)
        ∧ ∀ a ∈ (compareSummary c3ExampleComparison).changed_files, ∀ b ∈ rest,
            changeKey a ≤ changeKey b)
    ∧ (∀ f : ComparisonFileE, changeKey (mkChangedFile f) =
        match f.totals.base, f.totals.head with
        | some b, some h => round2 (h - b)
        | _, _ => 0) :=
  C3_file_change_ranking c3ExampleComparison

/-- C4 (divergence evidence): at the three summary spots the claim names
— `codecov_get_coverage_totals`, `codecov_get_file_coverage` and the
patch-coverage blocks — an absent `coverage` field renders as
`"undefined%"` (JavaScript `undefined + "%"`), not as the claimed
`"N/A"`, while the other summarizers do render `"N/A"`. -/
theorem C4_undefined_percent_divergence :
    (mkCoverageTotalsSummary
        ⟨10, 100, 80, 20, 0, none, 0, 0, 0, none⟩ "abc1234").coverage_percentage =
      "undefined%"
    ∧ (mkFileCoverageSummary "src/a.ts" "abc1234" "url"
        ⟨1, 10, 8, 2, 0, none, 0, 0, 0, none⟩ []).coverage_percentage = "undefined%"
    ∧ (compareSummary
        ⟨none, "headsha", ⟨none, 0, some ⟨1, 2, 3, none⟩⟩, [], [], false⟩).patch_coverage =
      some ⟨"undefined%", 1, 2, 3⟩
    ∧ (mkChangedFile
        ⟨"a.ts", ⟨none, none, some ⟨1, 2, 3, none⟩⟩, true, none, none⟩).patch =
      some ⟨"undefined%", 1, 2⟩
    ∧ ("undefined%" : String) ≠ "N/A"
    ∧ fmtPctOpt none = "N/A"
    ∧ jsUndefPct none = "undefined%" :=
  ⟨rfl, rfl, rfl, rfl, by decide, rfl, rfl⟩

/-! ### Error taxonomy and client construction
(CodecovClient, src codecov-client service) -/

/-- The `CodecovApiError` value raised by the client: message plus the
optional HTTP status and backend detail. -/
structure CodecovApiErrorE where
  message : String
  statusCode : Option Nat
  detail : Option String
  deriving Repr, DecidableEq

/-- An HTTP error response as the client reads it:
`response.status`, `response.data?.detail`, `response.data?.message`. -/
structure AxiosRespE where
  status : Nat
  detail : Option String
  message : Option String
  deriving Repr, DecidableEq

/-- The failure shapes `handleError` distinguishes: an axios error
(optionally carrying an HTTP response, always a transport message), any
other `Error`, or a non-`Error` thrown value. -/
inductive JsFailureE where
  | axios (response : Option AxiosRespE) (message : String)
  | error (message : String)
  | other
  deriving Repr, DecidableEq

/-- Embeds `axiosError.response?.data?.detail || axiosError.response?.data?.message`. -/
def axiosDetail (response : Option AxiosRespE) : Option String :=
  jsOrS (response.bind AxiosRespE.detail) (response.bind AxiosRespE.message)

/-- Embeds `CodecovClient.handleError`: the fixed status-to-message mapping
(401 authentication, 403 access denied, 404 not found, 429 rate limit),
any other axios failure carrying `detail || error.message ||
"Unknown API error"`, a plain `Error` passing its message through, and
`"Unknown error occurred"` for anything else. -/
def handleError : JsFailureE → CodecovApiErrorE
  | .axios response message =>
    let status := response.map AxiosRespE.status
    let detail := axiosDetail response
    if status = some 401 then
      ⟨"Authentication failed. Check your CODECOV_API_TOKEN.", status, detail⟩
    else if status = some 403 then
      ⟨"Access denied. You may not have permission to access this resource.", status, detail⟩
    else if status = some 404 then
      ⟨"Resource not found. Check the owner, repo, or path.", status, detail⟩
    else if status = some 429 then
      ⟨"Rate limit exceeded. Try again later.", status, detail⟩
    else
      ⟨(jsOrS (jsOrS detail (some message)) (some "Unknown API error")).getD "",
        status, detail⟩
  | .error msg => ⟨msg, none, none⟩
  | .other => ⟨"Unknown error occurred", none, none⟩

/-- One tool invocation result: the `content` text items and the
`isError` flag. -/
structure ToolResultE where
  content : List String
  isError : Bool
  deriving Repr, DecidableEq

/-- The uniform `catch` block of every registered tool:
`` {content: [{text: `Error: ${message}`}], isError: true} ``. -/
def toolCatch (e : CodecovApiErrorE) : ToolResultE :=
  ⟨["Error: " ++ e.message], true⟩

/-- A tool body: a success text or a thrown `CodecovApiError`, folded
through the registry's uniform envelope. -/
def runTool (r : Except CodecovApiErrorE String) : ToolResultE :=
  match r with
  | .ok text => ⟨[text], false⟩
  | .error e => toolCatch e

/-- The service enumeration (src/constants.ts). -/
inductive ServiceE where
  | github
  | gitlab
  | bitbucket
  deriving Repr, DecidableEq

/-- Embeds `DEFAULT_SERVICE = "github"` (src/constants.ts). -/
def DEFAULT_SERVICE : ServiceE := .github

/-- The constructed client state: the token and the default service
(the axios instance it creates carries no further domain state). -/
structure CodecovClientE where
  apiToken : String
  defaultService : ServiceE
  deriving Repr, DecidableEq

/-- The `CodecovClient` constructor: `if (!apiToken) throw ...` rejects
an empty (or missing, hence falsy) token before the axios instance — and
therefore before any request — exists; otherwise it records the token
and default service. -/
def CodecovClient.make (apiToken : String)
    (defaultService : ServiceE := DEFAULT_SERVICE) : Except String CodecovClientE :=
  if apiToken = "" then
    .error "CODECOV_API_TOKEN is required. Set it as an environment variable."
  else .ok ⟨apiToken, defaultService⟩

/-- Embeds `getCodecovClient`: returns the cached instance when present,
otherwise reads `CODECOV_API_TOKEN` from the environment, throws when it
is missing or empty, and constructs the client.  An `error` result means
no client value — and hence no request — was ever produced. -/
def getCodecovClient (instSlot : Option CodecovClientE) (env : Option String) :
    Except String CodecovClientE :=
  match instSlot with
  | some c => .ok c
  | none =>
    if jsTruthyS env = false then
      .error ("CODECOV_API_TOKEN environment variable is required. " ++
        "Get your token from Codecov settings: Settings > Access > Generate Token")
    else CodecovClient.make (env.getD "")

/-- C5: every thrown failure becomes exactly one `Error: <message>`
result flagged as an error, never a propagated exception; HTTP 404 maps
to the fixed not-found message, 429 to the rate-limit message, 401/403
to the authentication/access messages, and any other status carries the
backend detail or the transport's message or the generic fallback. -/
theorem C5_error_envelope (f : JsFailureE) (msg : String)
    (d m : Option String) (s : Nat)
    (hs : s ∉ ([401, 403, 404, 429] : List Nat)) :
    runTool (.error (handleError f)) = ⟨["Error: " ++ (handleError f).message], true⟩
    ∧ (runTool (.error (handleError f))).content.length = 1
    ∧ (runTool (.error (handleError f))).isError = true
    ∧ handleError (.axios (some ⟨404, d, m⟩) msg) =
        ⟨"Resource not found. Check the owner, repo, or path.", some 404, jsOrS d m⟩
    ∧ "not found".data <:+:
        (handleError (.axios (some ⟨404, d, m⟩) msg)).message.data
    ∧ handleError (.axios (some ⟨429, d, m⟩) msg) =
        ⟨"Rate limit exceeded. Try again later.", some 429, jsOrS d m⟩
    ∧ "Rate limit".data <:+:
        (handleError (.axios (some ⟨429, d, m⟩) msg)).message.data
    ∧ handleError (.axios (some ⟨401, d, m⟩) msg) =
        ⟨"Authentication failed. Check your CODECOV_API_TOKEN.", some 401, jsOrS d m⟩
    ∧ handleError (.axios (some ⟨403, d, m⟩) msg) =
        ⟨"Access denied. You may not have permission to access this resource.",
          some 403, jsOrS d m⟩
    ∧ handleError (.axios (some ⟨s, d, m⟩) msg) =
        ⟨(jsOrS (jsOrS (jsOrS d m) (some msg)) (some "Unknown API error")).getD "",
          some s, jsOrS d m⟩
    ∧ handleError (.error msg) = ⟨msg, none, none⟩
    ∧ handleError .other = ⟨"Unknown error occurred", none, none⟩ := by
  have h401 : s ≠ 401 := by intro h; exact hs (by simp [h])
  have h403 : s ≠ 403 := by intro h; exact hs (by simp [h])
  have h404 : s ≠ 404 := by intro h; exact hs (by simp [h])
  have h429 : s ≠ 429 := by intro h; exact hs (by simp [h])
  have he404 : handleError (.axios (some ⟨404, d, m⟩) msg) =
      ⟨"Resource not found. Check the owner, repo, or path.", some 404, jsOrS d m⟩ := rfl
  have he429 : handleError (.axios (some ⟨429, d, m⟩) msg) =
      ⟨"Rate limit exceeded. Try again later.", some 429, jsOrS d m⟩ := rfl
  refine ⟨rfl, rfl, rfl, he404,
    by rw [he404]
       exact (by decide :
         "not found".data <:+: "Resource not found. Check the owner, repo, or path.".data),
    he429,
    by rw [he429]
       exact (by decide : "Rate limit".data <:+: "Rate limit exceeded. Try again later.".data),
    rfl, rfl, ?_, rfl, rfl⟩
  simp only [handleError]
  rw [if_neg (by simpa using h401), if_neg (by simpa using h403),
    if_neg (by simpa using h404), if_neg (by simpa using h429)]
  rfl

/-- Closed witness for C5 at a concrete HTTP 500 failure. -/
theorem C5_witness :
    runTool (.error (handleError (.axios (some ⟨500, some "boom", none⟩) "req failed"))) =
        ⟨["Error: " ++
          (handleError (.axios (some ⟨500, some "boom", none⟩) "req failed")).message], true⟩
    ∧ handleError (.axios (some ⟨404, some "boom", none⟩) "req failed") =
        ⟨"Resource not found. Check the owner, repo, or path.", some 404,
          jsOrS (some "boom") none⟩
    ∧ handleError (.axios (some ⟨500, some "boom", none⟩) "req failed") =
        ⟨(jsOrS (jsOrS (jsOrS (some "boom") none) (some "req failed"))
            (some "Unknown API error")).getD "", some 500, jsOrS (some "boom") none⟩ :=
  ⟨(C5_error_envelope (.axios (some ⟨500, some "boom", none⟩) "req failed")
      "req failed" (some "boom") none 500 (by decide)).1,
   (C5_error_envelope (.axios (some ⟨500, some "boom", none⟩) "req failed")
      "req failed" (some "boom") none 500 (by decide)).2.2.2.1,
   (C5_error_envelope (.axios (some ⟨500, some "boom", none⟩) "req failed")
      "req failed" (some "boom") none 500 (by decide)).2.2.2.2.2.2.2.2.2.1⟩

/-- C6: with the API token absent — the environment variable missing or
empty — `getCodecovClient` fails with a configuration error before any
client (and hence any request) exists, and the `CodecovClient`
constructor rejects an empty token for every default service; a
non-empty token always constructs successfully. -/
theorem C6_missing_token_fails (env : Option String) (svc : ServiceE)
    (henv : env = none ∨ env = some "") :
    getCodecovClient none env =
        .error ("CODECOV_API_TOKEN environment variable is required. " ++
          "Get your token from Codecov settings: Settings > Access > Generate Token")
    ∧ CodecovClient.make "" svc =
        .error "CODECOV_API_TOKEN is required. Set it as an environment variable."
    ∧ (∀ t : String, t ≠ "" → CodecovClient.make t svc = .ok ⟨t, svc⟩) := by
  refine ⟨?_, rfl, fun t ht => by simp [CodecovClient.make, ht]⟩
  rcases henv with h | h <;> subst h <;> rfl

/-- Closed witness for C6 at a missing environment variable. -/
theorem C6_witness :
    getCodecovClient none none =
        .error ("CODECOV_API_TOKEN environment variable is required. " ++
          "Get your token from Codecov settings: Settings > Access > Generate Token")
    ∧ CodecovClient.make "" .github =
        .error "CODECOV_API_TOKEN is required. Set it as an environment variable."
    ∧ (∀ t : String, t ≠ "" → CodecovClient.make t .github = .ok ⟨t, .github⟩) :=
  C6_missing_token_fails none .github (Or.inl rfl)

/-! ### C7: list-operation query parameters -/

/-- A query-parameter value (`Record<string, string | number | boolean>`). -/
inductive QueryValE where
  | str (s : String)
  | num (n : Int)
  | bool (b : Bool)
  deriving Repr, DecidableEq

/-- Embeds `DEFAULT_PAGE_SIZE = 25` (src/constants.ts). -/
def DEFAULT_PAGE_SIZE : Int := 25

/-- Embeds `options?.pageSize || DEFAULT_PAGE_SIZE` (JS numeric truthiness). -/
def jsPageSize (pageSize : Option Int) : Int :=
  match pageSize with
  | some n => if n ≠ 0 then n else DEFAULT_PAGE_SIZE
  | none => DEFAULT_PAGE_SIZE

/-- Embeds `if (options?.x)` for numeric options. -/
def jsTruthyNum : Option Int → Bool
  | some n => decide (n ≠ 0)
  | none => false

/-- Embeds `listRepositories` query parameters in insertion order: `page_size`
always (defaulted), then `page` when truthy, `active` when not
`undefined` (so `active: false` is sent), and `names` comma-joined when
present and non-empty. -/
def listRepositoriesParams (page pageSize : Option Int) (active : Option Bool)
    (names : Option (List String)) : List (String × QueryValE) :=
  [("page_size", .num (jsPageSize pageSize))]
    ++ (if jsTruthyNum page then [("page", .num (page.getD 0))] else [])
    ++ (if active.isSome then [("active", .bool (active.getD false))] else [])
    ++ (match names with
        | some l => if l.length ≠ 0 then
            [("names", .str (String.intercalate "," l))]
          else []
        | none => [])

/-- Embeds `listCommits` query parameters. -/
def listCommitsParams (page pageSize : Option Int) (branch : Option String) :
    List (String × QueryValE) :=
  [("page_size", .num (jsPageSize pageSize))]
    ++ (if jsTruthyNum page then [("page", .num (page.getD 0))] else [])
    ++ (if jsTruthyS branch then [("branch", .str (branch.getD ""))] else [])

/-- Embeds `listPullRequests` query parameters. -/
def listPullRequestsParams (page pageSize : Option Int) (state : Option String) :
    List (String × QueryValE) :=
  [("page_size", .num (jsPageSize pageSize))]
    ++ (if jsTruthyNum page then [("page", .num (page.getD 0))] else [])
    ++ (if jsTruthyS state then [("state", .str (state.getD ""))] else [])

/-- C7 counterexample: the validation layer does not force `branch` or
`names` non-empty (`branchSchema` is a plain optional string with no
minimum length, and `names` a plain optional string array), yet the
client's truthiness guards omit a supplied empty branch and a supplied
empty names array from the query — so a parameter can be supplied and
still not appear, refuting the claimed "appears if and only if the
caller supplied it". -/
theorem C7_counterexample :
    ((some ("" : String)).isSome = true
      ∧ (listCommitsParams none none (some "")).lookup "branch" = none)
    ∧ ((some ([] : List String)).isSome = true
      ∧ (listRepositoriesParams none none none (some ([] : List String))).lookup "names" =
          none) := by
  decide

/-- C7 (amended): each list operation sends `page_size` equal to the
supplied value (positive per its schema) or the default 25; `page`
appears exactly when supplied (positive per its schema); `active`
appears exactly when supplied, `false` included; and `branch`, `state`
and `names` appear exactly when supplied with a non-empty value — a
supplied empty string or empty array is omitted from the request, never
sent as empty or null — with a names array sent as one comma-joined
string. -/
theorem C7_list_query_params (page pageSize : Option Int) (active : Option Bool)
    (names : Option (List String)) (branch state : Option String)
    (hpage : ∀ n, page = some n → 0 < n)
    (hps : ∀ n, pageSize = some n → 0 < n) :
    (listRepositoriesParams page pageSize active names).lookup "page_size" =
        some (.num (pageSize.getD DEFAULT_PAGE_SIZE))
    ∧ (listCommitsParams page pageSize branch).lookup "page_size" =
        some (.num (pageSize.getD DEFAULT_PAGE_SIZE))
    ∧ (listPullRequestsParams page pageSize state).lookup "page_size" =
        some (.num (pageSize.getD DEFAULT_PAGE_SIZE))
    ∧ (listRepositoriesParams page pageSize active names).lookup "page" =
        page.map QueryValE.num
    ∧ (listCommitsParams page pageSize branch).lookup "page" = page.map QueryValE.num
    ∧ (listPullRequestsParams page pageSize state).lookup "page" = page.map QueryValE.num
    ∧ (listRepositoriesParams page pageSize active names).lookup "active" =
        active.map QueryValE.bool
    ∧ (listRepositoriesParams page pageSize active names).lookup "names" =
        (names.filter fun l => !(l == [])).map
          (fun l => QueryValE.str (String.intercalate "," l))
    ∧ (listCommitsParams page pageSize branch).lookup "branch" =
        (branch.filter fun s => !(s == "")).map QueryValE.str
    ∧ (listPullRequestsParams page pageSize state).lookup "state" =
        (state.filter fun s => !(s == "")).map QueryValE.str := by
  have hjps : jsPageSize pageSize = pageSize.getD DEFAULT_PAGE_SIZE := by
    cases hcase : pageSize with
    | none => rfl
    | some n =>
      have hn : n ≠ 0 := by have := hps n hcase; omega
      simp [jsPageSize, hn]
  have hpt : jsTruthyNum page = page.isSome := by
    cases hcase : page with
    | none => rfl
    | some n =>
      have hn : n ≠ 0 := by have := hpage n hcase; omega
      simp [jsTruthyNum, hn]
  rcases hpg : page with _ | n <;> rcases hac : active with _ | b <;>
    rcases hnms : names with _ | l <;> rcases hbrc : branch with _ | bs <;>
    rcases hstc : state with _ | ss <;>
    subst hpg hac hnms hbrc hstc <;>
    (try by_cases hbs : bs = "") <;> (try by_cases hss : ss = "") <;>
    (try by_cases hl : l = []) <;>
    simp_all [listRepositoriesParams, listCommitsParams, listPullRequestsParams,
      jsTruthyNum, jsTruthyS, List.lookup, Option.filter]

/-- Closed witness for C7 with every optional parameter supplied
non-empty. -/
theorem C7_witness :
    (listRepositoriesParams (some 2) (some 50) (some false)
        (some ["a", "b"])).lookup "page_size" =
        some (.num ((some (50 : Int)).getD DEFAULT_PAGE_SIZE))
    ∧ (listCommitsParams (some 2) (some 50) (some "main")).lookup "page_size" =
        some (.num ((some (50 : Int)).getD DEFAULT_PAGE_SIZE))
    ∧ (listPullRequestsParams (some 2) (some 50) (some "open")).lookup "page_size" =
        some (.num ((some (50 : Int)).getD DEFAULT_PAGE_SIZE))
    ∧ (listRepositoriesParams (some 2) (some 50) (some false)
        (some ["a", "b"])).lookup "page" = (some (2 : Int)).map QueryValE.num
    ∧ (listCommitsParams (some 2) (some 50) (some "main")).lookup "page" =
        (some (2 : Int)).map QueryValE.num
    ∧ (listPullRequestsParams (some 2) (some 50) (some "open")).lookup "page" =
        (some (2 : Int)).map QueryValE.num
    ∧ (listRepositoriesParams (some 2) (some 50) (some false)
        (some ["a", "b"])).lookup "active" = (some false).map QueryValE.bool
    ∧ (listRepositoriesParams (some 2) (some 50) (some false)
        (some ["a", "b"])).lookup "names" =
        ((some ["a", "b"]).filter fun l => !(l == [])).map
          (fun l => QueryValE.str (String.intercalate "," l))
    ∧ (listCommitsParams (some 2) (some 50) (some "main")).lookup "branch" =
        ((some "main").filter fun s => !(s == "")).map QueryValE.str
    ∧ (listPullRequestsParams (some 2) (some 50) (some "open")).lookup "state" =
        ((some "open").filter fun s => !(s == "")).map QueryValE.str :=
  C7_list_query_params (some 2) (some 50) (some false) (some ["a", "b"])
    (some "main") (some "open")
    (by intro n h; cases h; omega) (by intro n h; cases h; omega)

/-! ### C8: coverage tree rendering (`codecov_get_coverage_tree`,
src/tools/coverage.ts) -/

/-- Embeds `CoverageTreeNode` as `formatNode` reads it (the handler's inline
type): `coverage` is dereferenced through `?.`, and JavaScript's
`children && children.length > 0` treats an absent and an empty child
array alike, so both embed as `[]`. -/
inductive CoverageTreeNodeE where
  | mk (name : String) (full_path : String) (coverage : Option Rat)
      (lines hits misses : Int) (children : List CoverageTreeNodeE)

/-- Embeds `node.name`. -/
def CoverageTreeNodeE.name : CoverageTreeNodeE → String
  | .mk n _ _ _ _ _ _ => n

/-- Embeds `node.coverage` (runtime-optional). -/
def CoverageTreeNodeE.coverage : CoverageTreeNodeE → Option Rat
  | .mk _ _ c _ _ _ _ => c

/-- Embeds `node.lines`. -/
def CoverageTreeNodeE.lines : CoverageTreeNodeE → Int
  | .mk _ _ _ l _ _ _ => l

/-- Embeds `node.hits`. -/
def CoverageTreeNodeE.hits : CoverageTreeNodeE → Int
  | .mk _ _ _ _ h _ _ => h

/-- Embeds `node.children` (absent embeds as `[]`). -/
def CoverageTreeNodeE.children : CoverageTreeNodeE → List CoverageTreeNodeE
  | .mk _ _ _ _ _ _ cs => cs

mutual

/-- Embeds `formatNode` from the `codecov_get_coverage_tree` handler: two-space
indent per depth unit, folder icon exactly when the child list is
non-empty, the node name, the `toFixed(1)` coverage (or `"N/A"` when
absent) and the `hits/lines` fraction, followed by the children rendered
at `depth + 1`.  (The source guards the loop with `isDir &&
node.children`; an empty child list makes the loop a no-op either way.) -/
def formatNode : CoverageTreeNodeE → Nat → String
  | .mk name _ coverage lines hits _ children, depth =>
    let indent := jsRepeat "  " depth
    let cov := match coverage with
      | some c => jsToFixed1 c
      | none => "N/A"
    let icon := if children.length > 0 then "📁" else "📄"
    indent ++ icon ++ " " ++ name ++ " - " ++ cov ++ "% (" ++
      intToStr hits ++ "/" ++ intToStr lines ++ " lines)" ++
      formatChildren children (depth + 1)

/-- The `for (const child of node.children)` loop:
`line += "\n" + formatNode(child, depth + 1)`. -/
def formatChildren : List CoverageTreeNodeE → Nat → String
  | [], _ => ""
  | c :: cs, depth => "\n" ++ formatNode c depth ++ formatChildren cs depth

end

mutual

/-- Pre-order traversal paired with the depth each node is rendered at. -/
def preorderNode : CoverageTreeNodeE → Nat → List (Nat × CoverageTreeNodeE)
  | .mk name fp cov lines hits misses children, depth =>
    (depth, .mk name fp cov lines hits misses children) ::
      preorderChildren children (depth + 1)

/-- Pre-order traversal of a child list. -/
def preorderChildren : List CoverageTreeNodeE → Nat → List (Nat × CoverageTreeNodeE)
  | [], _ => []
  | c :: cs, depth => preorderNode c depth ++ preorderChildren cs depth

end

/-- The single line `formatNode` produces for one node at one depth. -/
def renderLine (depth : Nat) (node : CoverageTreeNodeE) : String :=
  jsRepeat "  " depth ++ (if node.children.length > 0 then "📁" else "📄") ++ " " ++
    node.name ++ " - " ++
    (match node.coverage with
      | some c => jsToFixed1 c
      | none => "N/A") ++
    "% (" ++ intToStr node.hits ++ "/" ++ intToStr node.lines ++ " lines)"

/-- Newline-join of a line list. -/
def joinLines : List String → String
  | [] => ""
  | [x] => x
  | x :: xs => x ++ "\n" ++ joinLines xs

/-- Concatenation of lines, each preceded by a newline. -/
def prefixJoin : List String → String
  | [] => ""
  | s :: ss => "\n" ++ s ++ prefixJoin ss

theorem prefixJoin_append (a b : List String) :
    prefixJoin (a ++ b) = prefixJoin a ++ prefixJoin b := by
  induction a with
  | nil => simp [prefixJoin]
  | cons s ss ih => simp [prefixJoin, ih, String.append_assoc]

theorem joinLines_cons (x : String) (xs : List String) :
    joinLines (x :: xs) = x ++ prefixJoin xs := by
  induction xs generalizing x with
  | nil => simp [joinLines, prefixJoin]
  | cons y ys ih =>
    show x ++ "\n" ++ joinLines (y :: ys) = _
    rw [ih y]
    simp [prefixJoin, String.append_assoc]

mutual

theorem formatNode_eq : ∀ (n : CoverageTreeNodeE) (d : Nat),
    formatNode n d = joinLines ((preorderNode n d).map fun p => renderLine p.1 p.2)
  | .mk name fp cov lines hits misses children, d => by
    simp only [formatNode, preorderNode]
    rw [List.map_cons, joinLines_cons]
    rw [formatChildren_eq children (d + 1)]
    rfl

theorem formatChildren_eq : ∀ (cs : List CoverageTreeNodeE) (d : Nat),
    formatChildren cs d = prefixJoin ((preorderChildren cs d).map fun p => renderLine p.1 p.2)
  | [], d => by simp [formatChildren, preorderChildren, prefixJoin]
  | c :: cs, d => by
    simp only [formatChildren, preorderChildren, List.map_append]
    have h1 := formatNode_eq c d
    have h2 := formatChildren_eq cs d
    rw [h1, h2, prefixJoin_append]
    have hne : (preorderNode c d).map (fun p => renderLine p.1 p.2) ≠ [] := by
      cases c with
      | mk name fp cov lines hits misses children =>
        simp only [preorderNode]
        simp
    obtain ⟨x, xs, hx⟩ := List.exists_cons_of_ne_nil hne
    rw [hx, joinLines_cons]
    simp [prefixJoin, String.append_assoc]

end

mutual

/-- Number of nodes in a tree. -/
def countNode : CoverageTreeNodeE → Nat
  | .mk _ _ _ _ _ _ children => 1 + countChildren children

/-- Number of nodes in a forest. -/
def countChildren : List CoverageTreeNodeE → Nat
  | [] => 0
  | c :: cs => countNode c + countChildren cs

end

mutual

theorem preorderNode_length : ∀ (n : CoverageTreeNodeE) (d : Nat),
    (preorderNode n d).length = countNode n
  | .mk name fp cov lines hits misses children, d => by
    simp only [preorderNode, countNode, List.length_cons]
    rw [preorderChildren_length children (d + 1)]
    omega

theorem preorderChildren_length : ∀ (cs : List CoverageTreeNodeE) (d : Nat),
    (preorderChildren cs d).length = countChildren cs
  | [], _ => rfl
  | c :: cs, d => by
    simp only [preorderChildren, countChildren, List.length_append]
    rw [preorderNode_length c d, preorderChildren_length cs d]

end

theorem jsRepeat_two_data : ∀ d : Nat, (jsRepeat "  " d).data = List.replicate (2 * d) ' '
  | 0 => rfl
  | d + 1 => by
    have h : 2 * (d + 1) = 2 * d + 1 + 1 := by omega
    rw [jsRepeat, h, List.replicate_succ, List.replicate_succ]
    simp [jsRepeat_two_data d]

theorem renderLine_data (d : Nat) (nd : CoverageTreeNodeE) :
    (renderLine d nd).data =
      List.replicate (2 * d) ' ' ++
        (if nd.children.length > 0 then '📁' else '📄') ::
          (" " ++ nd.name ++ " - " ++
            (match nd.coverage with
              | some c => jsToFixed1 c
              | none => "N/A") ++
            "% (" ++ intToStr nd.hits ++ "/" ++ intToStr nd.lines ++ " lines)").data := by
  by_cases h : nd.children.length > 0 <;>
    simp [renderLine, h, jsRepeat_two_data, String.data_append]

/-- The loop of the `codecov_get_coverage_tree` handler appending each
root's rendering plus a newline. -/
def formatTreeList : List CoverageTreeNodeE → String
  | [] => ""
  | r :: rs => formatNode r 0 ++ "\n" ++ formatTreeList rs

/-- Embeds `"Coverage Tree:\n\n"` followed by every root's rendering. -/
def formatTree (roots : List CoverageTreeNodeE) : String :=
  "Coverage Tree:\n\n" ++ formatTreeList roots

/-- C8: `formatNode` is a pre-order traversal producing exactly one line
per node (`countNode` many), joined by newlines; each line starts with
exactly `2 * depth` spaces followed by the folder icon exactly when the
node has a non-empty child list (then name, one-decimal coverage or
`"N/A"`, and the `hits/lines` fraction); rendering is a pure function,
so re-rendering an unchanged tree is byte-identical. -/
theorem C8_tree_rendering (n : CoverageTreeNodeE) (d : Nat) :
    formatNode n d = joinLines ((preorderNode n d).map fun p => renderLine p.1 p.2)
    ∧ (preorderNode n d).length = countNode n
    ∧ (∀ (dep : Nat) (nd : CoverageTreeNodeE),
        (renderLine dep nd).data =
          List.replicate (2 * dep) ' ' ++
            (if nd.children.length > 0 then '📁' else '📄') ::
              (" " ++ nd.name ++ " - " ++
                (match nd.coverage with
                  | some c => jsToFixed1 c
                  | none => "N/A") ++
                "% (" ++ intToStr nd.hits ++ "/" ++ intToStr nd.lines ++ " lines)").data)
    ∧ (∀ roots : List CoverageTreeNodeE, formatTree roots = formatTree roots) :=
  ⟨formatNode_eq n d, preorderNode_length n d, renderLine_data, fun _ => rfl⟩

/-- C9: the untracked-files warning block follows the summary text
exactly when the untracked list is non-empty; it lists the first
`min 10 count` paths in order and carries an `... and N more` trailer
exactly when the count exceeds 10, with `N = count - 10`; with 15
untracked files, exactly 10 paths plus `... and 5 more` appear. -/
theorem C9_untracked_warning (body : String) (untracked : List String) :
    comparisonText body untracked = body ++ untrackedWarning untracked
    ∧ (untrackedWarning untracked = "" ↔ untracked = [])
    ∧ (untracked ≠ [] →
        untrackedWarning untracked =
          "\n\n⚠️ Untracked files (new files without coverage):\n" ++
            String.intercalate "\n" (untracked.take 10) ++
            (if untracked.length > 10 then
              "\n... and " ++ natToStr (untracked.length - 10) ++ " more"
            else ""))
    ∧ (untracked.take 10).length = min 10 untracked.length
    ∧ untrackedWarning (List.replicate 15 "file.ts") =
        "\n\n⚠️ Untracked files (new files without coverage):\n" ++
          String.intercalate "\n" (List.replicate 10 "file.ts") ++ "\n... and 5 more" := by
  refine ⟨rfl, ?_, ?_, by simp, by decide⟩
  · constructor
    · intro h
      by_contra hne
      have hlen : untracked.length > 0 := List.length_pos.mpr hne
      rw [untrackedWarning, if_pos hlen] at h
      have hl := congrArg String.length h
      simp only [String.length_append] at hl
      have h1 : (0:Nat) < ("\n\n⚠️ Untracked files (new files without coverage):\n").length := by
        decide
      have h2 : ("" : String).length = 0 := by decide
      omega
    · intro h
      subst h
      rfl
  · intro hne
    have hlen : untracked.length > 0 := List.length_pos.mpr hne
    rw [untrackedWarning, if_pos hlen]

/-- Closed witness for C9 at a 15-path untracked list. -/
theorem C9_witness :
    comparisonText "summary" (List.replicate 15 "file.ts") =
        "summary" ++ untrackedWarning (List.replicate 15 "file.ts")
    ∧ (untrackedWarning (List.replicate 15 "file.ts") = "" ↔ List.replicate 15 "file.ts" = [])
    ∧ untrackedWarning (List.replicate 15 "file.ts") =
        "\n\n⚠️ Untracked files (new files without coverage):\n" ++
          String.intercalate "\n" ((List.replicate 15 "file.ts").take 10) ++
          (if (List.replicate 15 "file.ts").length > 10 then
            "\n... and " ++ natToStr ((List.replicate 15 "file.ts").length - 10) ++ " more"
          else "")
    ∧ ((List.replicate 15 "file.ts").take 10).length = min 10 (List.replicate 15 "file.ts").length :=
  ⟨(C9_untracked_warning "summary" (List.replicate 15 "file.ts")).1,
   (C9_untracked_warning "summary" (List.replicate 15 "file.ts")).2.1,
   (C9_untracked_warning "summary" (List.replicate 15 "file.ts")).2.2.1 (by decide),
   (C9_untracked_warning "summary" (List.replicate 15 "file.ts")).2.2.2.1⟩

/-! ### C10: commit list summary (`codecov_list_commits`,
repository tools) -/

/-- Embeds `s.split("\n")` on the character list: single-character separator,
adjacent separators produce empty fragments, result never empty. -/
def jsSplitNl : List Char → List (List Char)
  | [] => [[]]
  | c :: cs =>
    if c = '\n' then [] :: jsSplitNl cs
    else
      match jsSplitNl cs with
      | t :: ts => (c :: t) :: ts
      | [] => [[c]]

/-- Embeds `commit.message?.split("\n")[0] ?? null`: the first fragment of the
newline split when a message is present, `null` otherwise. -/
def commitFirstLine (message : Option String) : Option String :=
  message.map fun s => ⟨(jsSplitNl s.data).headD []⟩

/-- Embeds `Commit` (src/types.ts) restricted to the fields the
`codecov_list_commits` record map reads, with the `author?.` and
`totals?.` chains flattened to options. -/
structure CommitE where
  commitid : String
  message : Option String
  branch : Option String
  timestamp : String
  ci_passed : Option Bool
  state : String
  author_username : Option String
  author_name : Option String
  totals_coverage : Option Rat
  deriving Repr, DecidableEq

/-- One element of the handler's `commits` array. -/
structure CommitOutE where
  sha : String
  short_sha : String
  message : Option String
  branch : Option String
  author : String
  timestamp : String
  ci_passed : Option Bool
  state : String
  coverage : String
  deriving Repr, DecidableEq

/-- The `codecov_list_commits` record map: first message line only,
seven-character short SHA, author username/name/`"Unknown"` fallback,
and `"N/A"` coverage when totals are absent. -/
def mkCommitOut (c : CommitE) : CommitOutE :=
  { sha := c.commitid
    short_sha := jsSubstring0 7 c.commitid
    message := commitFirstLine c.message
    branch := c.branch
    author := ((c.author_username).or (c.author_name)).getD "Unknown"
    timestamp := c.timestamp
    ci_passed := c.ci_passed
    state := c.state
    coverage := fmtPctOpt c.totals_coverage }

theorem jsSplitNl_ne_nil : ∀ l : List Char, jsSplitNl l ≠ []
  | [] => by simp [jsSplitNl]
  | c :: cs => by
    rw [jsSplitNl]
    split
    · simp
    · split <;> simp

theorem jsSplitNl_head : ∀ l : List Char,
    (jsSplitNl l).headD [] = l.takeWhile fun c => !decide (c = '\n')
  | [] => rfl
  | c :: cs => by
    rw [jsSplitNl]
    by_cases hc : c = '\n'
    · subst hc
      simp [List.takeWhile_cons]
    · obtain ⟨t, ts, ht⟩ := List.exists_cons_of_ne_nil (jsSplitNl_ne_nil cs)
      rw [if_neg hc, ht]
      have hh := jsSplitNl_head cs
      rw [ht] at hh
      simp only [List.headD_cons] at hh ⊢
      simp [List.takeWhile_cons, hc, hh]

/-- C10: the rendered commit message is exactly the longest newline-free
prefix of the backend message (the part before the first newline) when a
message is present, and `null` when it is absent; the handler's record
map stores precisely that value. -/
theorem C10_commit_message_first_line (s : String) (c : CommitE) :
    commitFirstLine none = none
    ∧ commitFirstLine (some s) =
        some ⟨s.data.takeWhile (fun ch => !decide (ch = '\n'))⟩
    ∧ (s.data.takeWhile (fun ch => !decide (ch = '\n'))) <+: s.data
    ∧ '\n' ∉ s.data.takeWhile (fun ch => !decide (ch = '\n'))
    ∧ (mkCommitOut c).message = commitFirstLine c.message := by
  refine ⟨rfl, ?_, List.takeWhile_prefix _, ?_, rfl⟩
  · show some (⟨(jsSplitNl s.data).headD []⟩ : String) = _
    rw [jsSplitNl_head]
  · intro hmem
    have := List.mem_takeWhile_imp hmem
    simp at this

/-- Closed witness for C10 at a concrete two-line commit message. -/
theorem C10_witness :
    commitFirstLine none = none
    ∧ commitFirstLine (some "fix: bug\nlonger body") =
        some ⟨("fix: bug\nlonger body".data.takeWhile (fun ch => !decide (ch = '\n')))⟩
    ∧ ("fix: bug\nlonger body".data.takeWhile (fun ch => !decide (ch = '\n'))) <+:
        "fix: bug\nlonger body".data
    ∧ '\n' ∉ "fix: bug\nlonger body".data.takeWhile (fun ch => !decide (ch = '\n'))
    ∧ (mkCommitOut ⟨"0123456789abcdef", some "fix: bug\nlonger body", some "main",
        "2024-01-01", some true, "complete", some "alice", none, some 90⟩).message =
      commitFirstLine (some "fix: bug\nlonger body") := by
  have h := C10_commit_message_first_line "fix: bug\nlonger body"
    ⟨"0123456789abcdef", some "fix: bug\nlonger body", some "main",
      "2024-01-01", some true, "complete", some "alice", none, some 90⟩
  exact h

end Codecov
